import Mathlib

/-!
Shallow embedding of the connection engine of `wayland/client.py`
(message framing, object-id lifecycle, outbound flushing, globals
bootstrap), together with proofs of its specified properties.

Conventions:
* machine bytes are `Nat`s below 256; `struct.unpack("II", ...)` on the
  connection's native (little-endian) byte order is modelled by `fromLE4`;
* Python dicts keyed by ints/strings are modelled as association lists
  with `lookupA`/`setA`/`eraseA`;
* fallible Python code (KeyError, ValueError, StopIteration, AttributeError,
  raised IOError) is modelled with `Option`/explicit error results;
* the `while` loops of `Display.decode` are modelled with explicit fuel;
  `.diverge` marks runs on which the Python loop does not terminate.
-/

namespace Wayland

/-- A byte on the wire (an integer in `0..255` in every well-formed frame). -/
abbrev Byte := Nat

/-- Little-endian value of four bytes, as read by `struct.unpack("I", ...)`. -/
def fromLE4 (b0 b1 b2 b3 : Byte) : Nat :=
  b0 + 256 * b1 + 65536 * b2 + 16777216 * b3

/-- Little-endian encoding of a 32-bit value, as written by `struct.pack("I", ...)`. -/
def toLE4 (n : Nat) : List Byte :=
  [n % 256, n / 256 % 256, n / 65536 % 256, n / 16777216 % 256]

/-- Read the 32-bit little-endian word at the head of a byte list
(only meaningful when at least four bytes are present). -/
def readU32 : List Byte → Nat
  | b0 :: b1 :: b2 :: b3 :: _ => fromLE4 b0 b1 b2 b3
  | _ => 0

theorem readU32_toLE4_append (n : Nat) (hn : n < 4294967296) (rest : List Byte) :
    readU32 (toLE4 n ++ rest) = n := by
  simp only [toLE4, List.cons_append, List.nil_append, readU32, fromLE4]
  omega

/-- Association-list lookup; models `d[k]` / `d.get(k)` on a Python dict. -/
def lookupA {α β : Type} [DecidableEq α] : List (α × β) → α → Option β
  | [], _ => none
  | (k, v) :: rest, a => if k = a then some v else lookupA rest a

/-- Association-list update; models `d[k] = v` on a Python dict
(replaces the existing binding, else appends, preserving key uniqueness). -/
def setA {α β : Type} [DecidableEq α] : List (α × β) → α → β → List (α × β)
  | [], a, b => [(a, b)]
  | (k, v) :: rest, a, b => if k = a then (a, b) :: rest else (k, v) :: setA rest a b

/-- Association-list deletion; models `del d[k]` on a Python dict. -/
def eraseA {α β : Type} [DecidableEq α] (l : List (α × β)) (a : α) : List (α × β) :=
  l.filter (fun p => p.1 ≠ a)

theorem lookupA_setA_self {α β : Type} [DecidableEq α] (l : List (α × β)) (a : α) (b : β) :
    lookupA (setA l a b) a = some b := by
  induction l with
  | nil => simp [setA, lookupA]
  | cons p rest ih =>
    obtain ⟨k, v⟩ := p
    by_cases h : k = a <;> simp [setA, lookupA, h, ih]

theorem lookupA_setA_ne {α β : Type} [DecidableEq α] (l : List (α × β)) (a a' : α) (b : β)
    (h : a ≠ a') : lookupA (setA l a b) a' = lookupA l a' := by
  induction l with
  | nil => simp [setA, lookupA, h]
  | cons p rest ih =>
    obtain ⟨k, v⟩ := p
    by_cases hk : k = a
    · subst hk; simp [setA, lookupA, h]
    · simp [setA, lookupA, hk, ih]

theorem eraseA_cons {α β : Type} [DecidableEq α] (k : α) (v : β) (rest : List (α × β)) (a : α) :
    eraseA ((k, v) :: rest) a =
      ite (k = a) (eraseA rest a) ((k, v) :: eraseA rest a) := by
  by_cases hk : k = a <;> simp [eraseA, hk]

theorem lookupA_eraseA_self {α β : Type} [DecidableEq α] (l : List (α × β)) (a : α) :
    lookupA (eraseA l a) a = none := by
  induction l with
  | nil => simp [eraseA, lookupA]
  | cons p rest ih =>
    obtain ⟨k, v⟩ := p
    rw [eraseA_cons]
    by_cases h : k = a
    · simpa [h] using ih
    · simpa [lookupA, h] using ih

theorem lookupA_eraseA_ne {α β : Type} [DecidableEq α] (l : List (α × β)) (a a' : α)
    (h : a ≠ a') : lookupA (eraseA l a) a' = lookupA l a' := by
  induction l with
  | nil => simp [eraseA, lookupA]
  | cons p rest ih =>
    obtain ⟨k, v⟩ := p
    rw [eraseA_cons]
    by_cases hk : k = a
    · subst hk; simpa [lookupA, h] using ih
    · simp [lookupA, hk, ih]

/-- A client-side proxy for one server object: its id and its interface
identity (`WaylandObject` subclasses carry a class-level `interface`). -/
structure Proxy where
  obj_id : Nat
  interface : String
  deriving DecidableEq, Repr, Inhabited

/-- The value bound in `Display.globals` under one interface name: either a
single proxy or (when several same-interface globals coexist) the ordered
Python list the code upgrades it to. -/
inductive GlobalSlot where
  | one (p : Proxy)
  | many (l : List Proxy)
  deriving DecidableEq, Repr

/-- A queued decoded event.  The source queues
`obj.unpack_event(op, data[8:size], self.incoming_fds)`; since each
interface's `unpack_event` is a deterministic function of the target
object, the opcode and those payload bytes, the queue entry is modelled
by the triple `(target object id, opcode, payload bytes)`. -/
abbrev Event := Nat × Nat × List Byte

/-- An outbound queue entry: `(message bytes, file descriptors)`. -/
abbrev OutEntry := List Byte × List Nat

/-- The connection state of `Display.__init__` that the verified methods
touch: the id allocator (`open_ids` free-list plus the
`iter(range(1, 0xffffffff))` iterator, represented by the next value it
will yield), the live-object table, the dead-id list, the outbound queue,
the pending-event queue and the retained decode remainder. -/
structure Display where
  global_templates : List String
  open_ids : List Nat
  ids_next : Nat
  objects : List (Nat × Proxy)
  dead_objects : List Nat
  out_queue : List OutEntry
  event_queue : List Event
  previous_data : List Byte
  globals : List (String × GlobalSlot)
  deriving DecidableEq, Repr

/-- Model of `Display.next_id`: pop the head of the `open_ids` free-list if
non-empty, else draw `next(self.ids)` from `iter(range(1, 0xffffffff))`;
`none` models the `StopIteration` raised once the iterator is exhausted. -/
def Display.next_id (st : Display) : Option (Nat × Display) :=
  match st.open_ids with
  | i :: rest => some (i, { st with open_ids := rest })
  | [] =>
    if st.ids_next < 4294967295 then
      some (st.ids_next, { st with ids_next := st.ids_next + 1 })
    else
      none

/-- The allocator fields as `Display.__init__` sets them (line 45-46)
just before the connection's first `next_id` call: an empty free-list and
the fresh `range(1, 0xffffffff)` iterator. -/
def initAllocDisplay : Display :=
  { global_templates := []
    open_ids := []
    ids_next := 1
    objects := []
    dead_objects := []
    out_queue := []
    event_queue := []
    previous_data := []
    globals := [] }

/-- The ids returned by `n` consecutive `next_id` calls (stopping early if
the iterator is exhausted), with no intervening frees. -/
def issuedIds : Nat → Display → List Nat
  | 0, _ => []
  | n + 1, st =>
    match st.next_id with
    | none => []
    | some (i, st') => i :: issuedIds n st'

theorem issuedIds_no_free (n : Nat) (st : Display) (hopen : st.open_ids = []) :
    issuedIds n st =
      List.range' st.ids_next (min n (4294967295 - st.ids_next)) := by
  induction n generalizing st with
  | zero => simp [issuedIds]
  | succ n ih =>
    by_cases h : st.ids_next < 4294967295
    · have : issuedIds (n + 1) st =
          st.ids_next :: issuedIds n { st with ids_next := st.ids_next + 1 } := by
        simp [issuedIds, Display.next_id, hopen, h]
      rw [this, ih _ (by simp [hopen])]
      have hmin : min (n + 1) (4294967295 - st.ids_next) =
          (min n (4294967295 - (st.ids_next + 1))) + 1 := by omega
      rw [hmin, List.range'_succ]
    · have h0 : 4294967295 - st.ids_next = 0 := by omega
      simp [issuedIds, Display.next_id, hopen, h, h0]

/-- The declared size of the frame at the head of the buffer:
`size = sizeop >> 16` where `sizeop` is the second header word. -/
def frameSize (data : List Byte) : Nat := readU32 (data.drop 4) / 65536

/-- The opcode of the frame at the head of the buffer: `op = sizeop & 0xFFFF`. -/
def frameOp (data : List Byte) : Nat := readU32 (data.drop 4) % 65536

/-- Result of `Display.decode`: normal return, a raised
`IOError("Error: Bad object: ...")` (carrying the state at the moment of the
raise — the event queue extended by the frames already processed, the
retained remainder not yet overwritten), or non-termination of the
`while` loop. -/
inductive DecodeRes where
  | ok (st : Display)
  | badObject (obj_id : Nat) (st : Display)
  | diverge
  deriving DecidableEq, Repr

/-- The `while len(data) >= 8` loop of `Display.decode` (lines 94-112),
with explicit fuel: each iteration reads the 8-byte header, stops
retaining the buffer when fewer than `size` bytes are available, silently
drops frames addressed to dead ids, queues the decoded event for live
ids, and raises for unknown ids. -/
def decodeLoop : Nat → Display → List Byte → DecodeRes
  | 0, _, _ => .diverge
  | fuel + 1, st, data =>
    if data.length < 8 then .ok { st with previous_data := data }
    else if data.length < frameSize data then .ok { st with previous_data := data }
    else if readU32 data ∈ st.dead_objects then
      decodeLoop fuel st (data.drop (frameSize data))
    else
      match lookupA st.objects (readU32 data) with
      | some _ =>
        decodeLoop fuel
          { st with event_queue :=
              st.event_queue ++
                [(readU32 data, frameOp data, (data.take (frameSize data)).drop 8)] }
          (data.drop (frameSize data))
      | none => .badObject (readU32 data) st

/-- Model of `Display.decode` (lines 91-113): prepend the retained remainder, run
the frame loop, and store whatever is left back into `previous_data`.
The fuel `length + 1` is exact: every terminating run of the Python loop
consumes at least one byte per iteration, and runs that exhaust this fuel
are precisely the runs on which the Python loop spins forever (a complete
frame declaring size 0 never advances the buffer). -/
def decode (st : Display) (data : List Byte) : DecodeRes :=
  decodeLoop ((st.previous_data ++ data).length + 1) st (st.previous_data ++ data)

/-- One wire frame: target object id, opcode and payload bytes. -/
structure Frame where
  obj_id : Nat
  op : Nat
  payload : List Byte
  deriving DecidableEq, Repr

/-- Well-formedness of a frame as the peer would put it on the wire: the
id fits 32 bits, the opcode fits 16 bits, and the total size
(8-byte header plus payload) fits the 16-bit size field. -/
def Frame.WF (f : Frame) : Prop :=
  f.obj_id < 4294967296 ∧ f.op < 65536 ∧ 8 + f.payload.length < 65536

instance (f : Frame) : Decidable f.WF := by unfold Frame.WF; infer_instance

/-- Encoding of one frame: id word, then `size << 16 | opcode`, then payload. -/
def encodeFrame (f : Frame) : List Byte :=
  toLE4 f.obj_id ++ toLE4 (f.op + 65536 * (8 + f.payload.length)) ++ f.payload

/-- The event `Display.decode` queues for a live frame. -/
def Frame.evt (f : Frame) : Event := (f.obj_id, f.op, f.payload)

theorem encodeFrame_length (f : Frame) :
    (encodeFrame f).length = 8 + f.payload.length := by
  simp [encodeFrame, toLE4]; omega

theorem readU32_encodeFrame (f : Frame) (hwf : f.WF) (rest : List Byte) :
    readU32 (encodeFrame f ++ rest) = f.obj_id := by
  rw [encodeFrame, List.append_assoc, List.append_assoc]
  exact readU32_toLE4_append f.obj_id hwf.1 _

theorem drop4_encodeFrame (f : Frame) (rest : List Byte) :
    (encodeFrame f ++ rest).drop 4 =
      toLE4 (f.op + 65536 * (8 + f.payload.length)) ++ (f.payload ++ rest) := by
  rw [encodeFrame, List.append_assoc, List.append_assoc,
    List.drop_append_of_le_length (by simp [toLE4])]
  simp [toLE4]

theorem frameSize_encodeFrame (f : Frame) (hwf : f.WF) (rest : List Byte) :
    frameSize (encodeFrame f ++ rest) = 8 + f.payload.length := by
  rw [frameSize, drop4_encodeFrame,
    readU32_toLE4_append _ (by have := hwf.2.1; have := hwf.2.2; omega) _]
  have := hwf.2.1
  omega

theorem frameOp_encodeFrame (f : Frame) (hwf : f.WF) (rest : List Byte) :
    frameOp (encodeFrame f ++ rest) = f.op := by
  rw [frameOp, drop4_encodeFrame,
    readU32_toLE4_append _ (by have := hwf.2.1; have := hwf.2.2; omega) _]
  have := hwf.2.1
  omega

/-- One loop iteration on a buffer starting with a complete well-formed
frame: drop it if dead, queue it if live, raise if unknown. -/
theorem decodeLoop_frame_step (f : Frame) (hwf : f.WF) (fuel : Nat) (st : Display)
    (rest : List Byte) :
    decodeLoop (fuel + 1) st (encodeFrame f ++ rest) =
      if f.obj_id ∈ st.dead_objects then decodeLoop fuel st rest
      else
        match lookupA st.objects f.obj_id with
        | some _ =>
          decodeLoop fuel { st with event_queue := st.event_queue ++ [f.evt] } rest
        | none => .badObject f.obj_id st := by
  have hlen : (encodeFrame f ++ rest).length = 8 + f.payload.length + rest.length := by
    simp [encodeFrame_length]
  have hsz := frameSize_encodeFrame f hwf rest
  have hid := readU32_encodeFrame f hwf rest
  have hop := frameOp_encodeFrame f hwf rest
  have hdropsz : (encodeFrame f ++ rest).drop (frameSize (encodeFrame f ++ rest)) = rest := by
    rw [hsz, ← encodeFrame_length f, List.drop_left]
  have htake : ((encodeFrame f ++ rest).take (frameSize (encodeFrame f ++ rest))).drop 8 =
      f.payload := by
    rw [hsz, ← encodeFrame_length f, List.take_left]
    show (toLE4 f.obj_id ++
        (toLE4 (f.op + 65536 * (8 + f.payload.length)) ++ f.payload)).drop 8 = f.payload
    rfl
  rw [decodeLoop]
  rw [if_neg (by omega), if_neg (by omega), hid, hdropsz, htake, hop]
  rfl

/-- A complete frame declaring size 0 never advances the buffer: if its
id is dead or live, the Python loop spins forever, so every fuel value
yields `.diverge`. -/
theorem decodeLoop_zero_size_diverge (data : List Byte)
    (h8 : 8 ≤ data.length) (hsz : frameSize data = 0) :
    ∀ fuel st,
      readU32 data ∈ st.dead_objects ∨ (lookupA st.objects (readU32 data)).isSome →
      decodeLoop fuel st data = .diverge := by
  intro fuel
  induction fuel with
  | zero => intro st _; rfl
  | succ fuel ih =>
    intro st hm
    rw [decodeLoop, if_neg (by omega), if_neg (by omega)]
    by_cases hd : readU32 data ∈ st.dead_objects
    · rw [if_pos hd, hsz, List.drop_zero]
      exact ih st (Or.inl hd)
    · rw [if_neg hd]
      rcases hm with h | h
      · exact absurd h hd
      obtain ⟨p, hl⟩ := Option.isSome_iff_exists.mp h
      rw [hl, hsz, List.drop_zero]
      exact ih _ (Or.inr (by simp [hl]))

/-- The result of `decodeLoop` does not depend on the fuel, as long as the
fuel exceeds the buffer length (every terminating run consumes at least
one byte per iteration; non-terminating runs diverge at every fuel). -/
theorem decodeLoop_fuel_irrelevant (f : Nat) :
    ∀ g st data, data.length < f → data.length < g →
      decodeLoop f st data = decodeLoop g st data := by
  induction f using Nat.strong_induction_on with
  | _ f ih =>
    intro g st data hf hg
    cases f with
    | zero => omega
    | succ f =>
      cases g with
      | zero => omega
      | succ g =>
        by_cases h8 : data.length < 8
        · rw [decodeLoop, decodeLoop, if_pos h8, if_pos h8]
        · by_cases hsz : data.length < frameSize data
          · rw [decodeLoop, decodeLoop, if_neg h8, if_neg h8, if_pos hsz, if_pos hsz]
          · by_cases hz : frameSize data = 0
            · by_cases hd : readU32 data ∈ st.dead_objects
              · rw [decodeLoop_zero_size_diverge data (by omega) hz _ st (Or.inl hd),
                  decodeLoop_zero_size_diverge data (by omega) hz _ st (Or.inl hd)]
              · cases hl : lookupA st.objects (readU32 data) with
                | some p =>
                  rw [decodeLoop_zero_size_diverge data (by omega) hz _ st
                      (Or.inr (by simp [hl])),
                    decodeLoop_zero_size_diverge data (by omega) hz _ st
                      (Or.inr (by simp [hl]))]
                | none =>
                  rw [decodeLoop, decodeLoop, if_neg h8, if_neg h8, if_neg hsz, if_neg hsz,
                    if_neg hd, if_neg hd, hl]
            · have hlen : (data.drop (frameSize data)).length < data.length := by
                rw [List.length_drop]; omega
              rw [decodeLoop, decodeLoop, if_neg h8, if_neg h8, if_neg hsz, if_neg hsz]
              by_cases hd : readU32 data ∈ st.dead_objects
              · rw [if_pos hd, if_pos hd]
                exact ih f (by omega) g st _ (by omega) (by omega)
              · rw [if_neg hd, if_neg hd]
                cases hl : lookupA st.objects (readU32 data) with
                | some p => exact ih f (by omega) g _ _ (by omega) (by omega)
                | none => rfl

end Wayland

namespace Wayland

/-- C6: when the first frame header of the buffered bytes declares a size
strictly larger than the number of buffered bytes, `decode` queues zero
events and retains the entire buffer for the next receive cycle. -/
theorem decode_short_buffer_retains (st : Display) (data : List Byte)
    (h8 : 8 ≤ (st.previous_data ++ data).length)
    (hsz : (st.previous_data ++ data).length < frameSize (st.previous_data ++ data)) :
    decode st data = .ok { st with previous_data := st.previous_data ++ data } := by
  rw [decode, decodeLoop, if_neg (by omega), if_pos hsz]

/-- Witness for C6 at a concrete input: a lone 8-byte header declaring
size 16. -/
theorem decode_short_buffer_retains_witness :
    8 ≤ (initAllocDisplay.previous_data ++ (toLE4 1 ++ toLE4 (65536 * 16))).length ∧
      (initAllocDisplay.previous_data ++ (toLE4 1 ++ toLE4 (65536 * 16))).length <
        frameSize (initAllocDisplay.previous_data ++ (toLE4 1 ++ toLE4 (65536 * 16))) ∧
      decode initAllocDisplay (toLE4 1 ++ toLE4 (65536 * 16)) =
        .ok { initAllocDisplay with
                previous_data :=
                  initAllocDisplay.previous_data ++ (toLE4 1 ++ toLE4 (65536 * 16)) } :=
  ⟨by decide, by decide,
    decode_short_buffer_retains initAllocDisplay _ (by decide) (by decide)⟩

/-- C4: an incoming frame addressed to an id in the dead set is skipped:
decoding queues no event, raises no error, consumes exactly the frame's
declared size, and continues with the rest of the buffer exactly as if the
frame were absent. -/
theorem decode_skips_dead_frame (st : Display) (f : Frame) (rest : List Byte)
    (hwf : f.WF) (hdead : f.obj_id ∈ st.dead_objects) (hp : st.previous_data = []) :
    decode st (encodeFrame f ++ rest) = decode st rest := by
  rw [decode, decode, hp, List.nil_append, List.nil_append,
    decodeLoop_frame_step f hwf _ st rest, if_pos hdead]
  exact decodeLoop_fuel_irrelevant _ _ st rest
    (by rw [List.length_append, encodeFrame_length]; omega) (by omega)

/-- Witness for C4 at a concrete input: a frame for dead id 5 followed by
an empty rest-buffer. -/
theorem decode_skips_dead_frame_witness :
    (Frame.mk 5 0 []).WF ∧
      (Frame.mk 5 0 []).obj_id ∈
        (Display.dead_objects { initAllocDisplay with dead_objects := [5] }) ∧
      (Display.previous_data { initAllocDisplay with dead_objects := [5] }) = [] ∧
      decode { initAllocDisplay with dead_objects := [5] }
          (encodeFrame (Frame.mk 5 0 []) ++ []) =
        decode { initAllocDisplay with dead_objects := [5] } [] :=
  ⟨by decide, by decide, by decide,
    decode_skips_dead_frame { initAllocDisplay with dead_objects := [5] }
      (Frame.mk 5 0 []) [] (by decide) (by decide) (by decide)⟩

/-- C5: an incoming frame addressed to an id that is neither in the live
table nor in the dead set makes `decode` raise the fatal
`IOError("Error: Bad object ...")`, which propagates to the caller. -/
theorem decode_unknown_object_fatal (st : Display) (f : Frame) (rest : List Byte)
    (hwf : f.WF) (hdead : f.obj_id ∉ st.dead_objects)
    (hobj : lookupA st.objects f.obj_id = none) (hp : st.previous_data = []) :
    decode st (encodeFrame f ++ rest) = .badObject f.obj_id st := by
  rw [decode, hp, List.nil_append, decodeLoop_frame_step f hwf _ st rest,
    if_neg hdead, hobj]

/-- Witness for C5 at a concrete input: a frame for id 5 against an empty
live table and empty dead set. -/
theorem decode_unknown_object_fatal_witness :
    (Frame.mk 5 0 []).WF ∧
      (Frame.mk 5 0 []).obj_id ∉ initAllocDisplay.dead_objects ∧
      lookupA initAllocDisplay.objects (Frame.mk 5 0 []).obj_id = none ∧
      initAllocDisplay.previous_data = [] ∧
      decode initAllocDisplay (encodeFrame (Frame.mk 5 0 []) ++ []) =
        .badObject (Frame.mk 5 0 []).obj_id initAllocDisplay :=
  ⟨by decide, by decide, by decide, by decide,
    decode_unknown_object_fatal initAllocDisplay (Frame.mk 5 0 []) []
      (by decide) (by decide) (by decide) (by decide)⟩

/-- C7: from the allocator state `__init__` creates, `n` allocate calls
with no intervening frees return strictly increasing ids, the first of
which is 1, and 0 is never returned. -/
theorem next_id_monotone_from_one (n : Nat) (hn : 0 < n) :
    (issuedIds n initAllocDisplay).Chain' (· < ·) ∧
      (issuedIds n initAllocDisplay).head? = some 1 ∧
      0 ∉ issuedIds n initAllocDisplay := by
  have hrun : issuedIds n initAllocDisplay =
      List.range' 1 (min n 4294967294) := by
    simpa [initAllocDisplay] using issuedIds_no_free n initAllocDisplay rfl
  rw [hrun]
  refine ⟨?_, ?_, ?_⟩
  · exact (List.pairwise_lt_range' 1 (min n 4294967294)).chain'
  · have hmin : 0 < min n 4294967294 := by omega
    cases hm : min n 4294967294 with
    | zero => omega
    | succ m => simp [List.range'_succ]
  · intro hmem
    have := List.mem_range'.mp hmem
    omega

/-- Witness for C7 at a concrete input: three allocations. -/
theorem next_id_monotone_from_one_witness :
    0 < 3 ∧
      ((issuedIds 3 initAllocDisplay).Chain' (· < ·) ∧
        (issuedIds 3 initAllocDisplay).head? = some 1 ∧
        0 ∉ issuedIds 3 initAllocDisplay) :=
  ⟨by decide, next_id_monotone_from_one 3 (by decide)⟩

/-- The frames of `fs` wholly contained in the byte prefix `b` of the
stream `fs.flatMap encodeFrame`, together with the residual bytes of `b`
past the last whole frame. -/
def consumeFrames : List Frame → List Byte → List Frame × List Byte
  | [], b => ([], b)
  | f :: fs, b =>
    if 8 + f.payload.length ≤ b.length then
      ((f :: (consumeFrames fs (b.drop (8 + f.payload.length))).1),
        (consumeFrames fs (b.drop (8 + f.payload.length))).2)
    else ([], b)

/-- The events `Display.decode` queues for a run of frames: one per frame
not addressed to a dead id, in stream order. -/
def liveEvents (st : Display) (fs : List Frame) : List Event :=
  (fs.filter (fun f => decide (f.obj_id ∉ st.dead_objects))).map Frame.evt

theorem liveEvents_append (st : Display) (fs gs : List Frame) :
    liveEvents st (fs ++ gs) = liveEvents st fs ++ liveEvents st gs := by
  simp [liveEvents]

/-- A prefix of `x ++ y` at least as long as `x` starts with `x`. -/
theorem prefix_append_split {α : Type} (b x y : List α) (h : b <+: x ++ y)
    (hl : x.length ≤ b.length) : b.take x.length = x ∧ b.drop x.length <+: y := by
  obtain ⟨t, ht⟩ := h
  constructor
  · have : (b ++ t).take x.length = b.take x.length :=
      List.take_append_of_le_length hl
    rw [ht, List.take_left] at this
    exact this.symm
  · have : (b ++ t).drop x.length = b.drop x.length ++ t := by
      rw [List.drop_append_of_le_length hl]
    rw [ht, List.drop_left] at this
    exact ⟨t, this.symm⟩

/-- The value of `readU32` depends only on the first four bytes. -/
theorem readU32_first4 (l₁ l₂ : List Byte) (h4 : 4 ≤ l₁.length)
    (h : l₁ <+: l₂) : readU32 l₂ = readU32 l₁ := by
  match l₁, h4 with
  | b0 :: b1 :: b2 :: b3 :: tl, _ =>
    obtain ⟨t, ht⟩ := h
    rw [← ht]
    rfl

/-- The value of `frameSize` depends only on the first eight bytes. -/
theorem frameSize_first8 (b c : List Byte) (h8 : 8 ≤ b.length) (h : b <+: c) :
    frameSize b = frameSize c := by
  rw [frameSize, frameSize,
    readU32_first4 (b.drop 4) (c.drop 4) (by rw [List.length_drop]; omega)
      (h.drop 4)]

/-- Splitting facts for `consumeFrames` on a prefix of an encoded stream. -/
theorem consumeFrames_split :
    ∀ (fs : List Frame) (b : List Byte), b <+: fs.flatMap encodeFrame →
      ∃ fs',
        fs = (consumeFrames fs b).1 ++ fs' ∧
        ((consumeFrames fs b).1).flatMap encodeFrame ++ (consumeFrames fs b).2 = b ∧
        ((fs' = [] ∧ (consumeFrames fs b).2 = []) ∨
          (∃ g gs, fs' = g :: gs ∧
            (consumeFrames fs b).2.length < 8 + g.payload.length ∧
            (consumeFrames fs b).2 <+: encodeFrame g)) := by
  intro fs
  induction fs with
  | nil =>
    intro b hb
    have hb0 : b = [] := List.prefix_nil.mp (by simpa using hb)
    subst hb0
    exact ⟨[], by simp [consumeFrames], by simp [consumeFrames],
      Or.inl ⟨rfl, by simp [consumeFrames]⟩⟩
  | cons f fs ih =>
    intro b hb
    rw [List.flatMap_cons] at hb
    by_cases hlen : 8 + f.payload.length ≤ b.length
    · have hsplit := prefix_append_split b (encodeFrame f) (fs.flatMap encodeFrame)
        hb (by rw [encodeFrame_length]; omega)
      have htake : b.take (8 + f.payload.length) = encodeFrame f := by
        rw [← encodeFrame_length]; exact hsplit.1
      have hdrop : b.drop (8 + f.payload.length) <+: fs.flatMap encodeFrame := by
        rw [← encodeFrame_length]; exact hsplit.2
      obtain ⟨fs', h1, h2, h3⟩ := ih (b.drop (8 + f.payload.length)) hdrop
      refine ⟨fs', ?_, ?_, ?_⟩
      · rw [consumeFrames, if_pos hlen]
        simpa using congrArg (f :: ·) h1
      · rw [consumeFrames, if_pos hlen]
        simp only [List.flatMap_cons, List.append_assoc]
        rw [h2, ← htake, List.take_append_drop]
      · rw [consumeFrames, if_pos hlen]
        exact h3
    · have hc : consumeFrames (f :: fs) b = ([], b) := by
        rw [consumeFrames, if_neg hlen]
      refine ⟨f :: fs, by simp [hc], by simp [hc], ?_⟩
      refine Or.inr ⟨f, fs, rfl, ?_, ?_⟩
      · simp only [hc]
        simpa using by omega
      · simp only [hc]
        show b <+: encodeFrame f
        exact List.prefix_of_prefix_length_le hb (List.prefix_append _ _)
          (by rw [encodeFrame_length]; omega)

theorem liveEvents_cons (st : Display) (f : Frame) (l : List Frame) :
    liveEvents st (f :: l) =
      ite (f.obj_id ∈ st.dead_objects) (liveEvents st l) (f.evt :: liveEvents st l) := by
  by_cases hd : f.obj_id ∈ st.dead_objects <;> simp [liveEvents, hd]

/-- Running the decode loop over any byte prefix of a valid encoded
stream: the whole frames contained in the prefix are processed (their
live events queued in order), and the residual partial-frame bytes are
retained. -/
theorem decodeLoop_stream_run :
    ∀ (fs : List Frame) (b : List Byte) (st : Display),
      (∀ f ∈ fs, f.WF) →
      (∀ f ∈ fs, (lookupA st.objects f.obj_id).isSome ∨ f.obj_id ∈ st.dead_objects) →
      b <+: fs.flatMap encodeFrame →
      decodeLoop (b.length + 1) st b =
        .ok { st with
          event_queue := st.event_queue ++ liveEvents st (consumeFrames fs b).1,
          previous_data := (consumeFrames fs b).2 } := by
  intro fs
  induction fs with
  | nil =>
    intro b st _ _ hb
    have hb0 : b = [] := List.prefix_nil.mp (by simpa using hb)
    subst hb0
    rw [decodeLoop, if_pos (by simp)]
    simp [consumeFrames, liveEvents]
  | cons f fs ih =>
    intro b st hwf hv hb
    rw [List.flatMap_cons] at hb
    have hwff : f.WF := hwf f (by simp)
    by_cases hlen : 8 + f.payload.length ≤ b.length
    · have hsplit := prefix_append_split b (encodeFrame f) (fs.flatMap encodeFrame) hb
        (by rw [encodeFrame_length]; omega)
      have htake : b.take (8 + f.payload.length) = encodeFrame f := by
        rw [← encodeFrame_length]; exact hsplit.1
      have hdrop : b.drop (8 + f.payload.length) <+: fs.flatMap encodeFrame := by
        rw [← encodeFrame_length]; exact hsplit.2
      have hbeq : b = encodeFrame f ++ b.drop (8 + f.payload.length) := by
        conv_lhs => rw [← List.take_append_drop (8 + f.payload.length) b]
        rw [htake]
      have hblen : b.length = (8 + f.payload.length) +
          (b.drop (8 + f.payload.length)).length := by
        rw [List.length_drop]; omega
      have hcf : consumeFrames (f :: fs) b =
          (f :: (consumeFrames fs (b.drop (8 + f.payload.length))).1,
            (consumeFrames fs (b.drop (8 + f.payload.length))).2) := by
        rw [consumeFrames, if_pos hlen]
      have hstep := decodeLoop_frame_step f hwff b.length st
        (b.drop (8 + f.payload.length))
      have hdata : decodeLoop (b.length + 1) st b =
          decodeLoop (b.length + 1) st
            (encodeFrame f ++ b.drop (8 + f.payload.length)) :=
        congrArg (decodeLoop (b.length + 1) st) hbeq
      by_cases hd : f.obj_id ∈ st.dead_objects
      · have hchain : decodeLoop (b.length + 1) st b =
            decodeLoop b.length st (b.drop (8 + f.payload.length)) := by
          rw [hdata, hstep, if_pos hd]
        rw [hchain,
          decodeLoop_fuel_irrelevant b.length
            ((b.drop (8 + f.payload.length)).length + 1) st
            (b.drop (8 + f.payload.length))
            (by rw [List.length_drop]; omega) (by omega),
          ih (b.drop (8 + f.payload.length)) st
            (fun g hg => hwf g (by simp [hg]))
            (fun g hg => hv g (by simp [hg])) hdrop,
          hcf, liveEvents_cons, if_pos hd]
      · have hsome : (lookupA st.objects f.obj_id).isSome := by
          rcases hv f (by simp) with h | h
          · exact h
          · exact absurd h hd
        obtain ⟨p, hp⟩ := Option.isSome_iff_exists.mp hsome
        have hchain : decodeLoop (b.length + 1) st b =
            decodeLoop b.length
              { st with event_queue := st.event_queue ++ [f.evt] }
              (b.drop (8 + f.payload.length)) := by
          rw [hdata, hstep, if_neg hd, hp]
        rw [hchain,
          decodeLoop_fuel_irrelevant b.length
            ((b.drop (8 + f.payload.length)).length + 1) _
            (b.drop (8 + f.payload.length))
            (by rw [List.length_drop]; omega) (by omega),
          ih (b.drop (8 + f.payload.length))
            { st with event_queue := st.event_queue ++ [f.evt] }
            (fun g hg => hwf g (by simp [hg]))
            (fun g hg => hv g (by simp [hg])) hdrop,
          hcf, liveEvents_cons, if_neg hd]
        simp [liveEvents]
    · have hc : consumeFrames (f :: fs) b = ([], b) := by
        rw [consumeFrames, if_neg hlen]
      rw [hc]
      have hpre : b <+: encodeFrame f :=
        List.prefix_of_prefix_length_le hb (List.prefix_append _ _)
          (by rw [encodeFrame_length]; omega)
      by_cases h8 : b.length < 8
      · rw [decodeLoop, if_pos h8]
        simp [liveEvents]
      · have hfs : frameSize b = 8 + f.payload.length := by
          rw [frameSize_first8 b (encodeFrame f) (by omega)
            hpre, ← List.append_nil (encodeFrame f), frameSize_encodeFrame f hwff]
        rw [decodeLoop, if_neg h8, if_pos (by omega)]
        simp [liveEvents]

/-- Feeding the decoder a sequence of byte chunks, one `decode` call per
chunk (each call prepending the retained remainder), propagating any
raised error. -/
def decodeChunks (st : Display) : List (List Byte) → DecodeRes
  | [] => .ok st
  | c :: cs =>
    match decode st c with
    | .ok st1 => decodeChunks st1 cs
    | .badObject i s => .badObject i s
    | .diverge => .diverge

/-- Chunked decoding of any split of a valid encoded stream processes all
frames: invariant form, carrying the retained partial-frame remainder. -/
theorem decodeChunks_stream_run :
    ∀ (chunks : List (List Byte)) (st : Display) (fs : List Frame),
      (∀ f, f ∈ fs → f.WF) →
      (∀ f, f ∈ fs → (lookupA st.objects f.obj_id).isSome \/ f.obj_id ∈ st.dead_objects) →
      st.previous_data ++ chunks.flatten = fs.flatMap encodeFrame →
      ((fs = [] /\ st.previous_data = []) \/
        (∃ g gs, fs = g :: gs /\ st.previous_data.length < 8 + g.payload.length)) →
      decodeChunks st chunks =
        .ok { st with event_queue := st.event_queue ++ liveEvents st fs,
                      previous_data := [] } := by
  intro chunks
  induction chunks with
  | nil =>
    intro st fs hwf hv hsplit hstuck
    rw [List.flatten_nil, List.append_nil] at hsplit
    rcases hstuck with h | h
    · obtain ⟨hfs, hprev⟩ := h
      subst hfs
      have hq : liveEvents st ([] : List Frame) = [] := by simp [liveEvents]
      rw [decodeChunks, hq, List.append_nil, ← hprev]
    · obtain ⟨g, gs, hfs, hlenp⟩ := h
      exfalso
      have := congrArg List.length hsplit
      rw [hfs, List.flatMap_cons, List.length_append, encodeFrame_length] at this
      omega
  | cons c cs ih =>
    intro st fs hwf hv hsplit hstuck
    rw [List.flatten_cons] at hsplit
    have hb : (st.previous_data ++ c) <+: fs.flatMap encodeFrame := by
      refine ⟨cs.flatten, ?_⟩
      rw [List.append_assoc]
      exact hsplit
    obtain ⟨fs2, hfs, hbytes, hstuck2⟩ := consumeFrames_split fs (st.previous_data ++ c) hb
    have hdec : decode st c =
        .ok { st with
          event_queue :=
            st.event_queue ++ liveEvents st (consumeFrames fs (st.previous_data ++ c)).1,
          previous_data := (consumeFrames fs (st.previous_data ++ c)).2 } :=
      decodeLoop_stream_run fs (st.previous_data ++ c) st hwf hv hb
    have hsplit2 : (consumeFrames fs (st.previous_data ++ c)).2 ++ cs.flatten =
        fs2.flatMap encodeFrame := by
      have h1 : (consumeFrames fs (st.previous_data ++ c)).1.flatMap encodeFrame ++
          ((consumeFrames fs (st.previous_data ++ c)).2 ++ cs.flatten) =
          (consumeFrames fs (st.previous_data ++ c)).1.flatMap encodeFrame ++
            fs2.flatMap encodeFrame := by
        rw [← List.append_assoc, hbytes, List.append_assoc, ← List.flatMap_append, ← hfs]
        exact hsplit
      exact List.append_cancel_left h1
    have hstuck3 : (fs2 = [] ∧ (consumeFrames fs (st.previous_data ++ c)).2 = []) ∨
        ∃ g gs, fs2 = g :: gs ∧
          (consumeFrames fs (st.previous_data ++ c)).2.length < 8 + g.payload.length := by
      rcases hstuck2 with h | h
      · exact Or.inl h
      · obtain ⟨g, gs, h1, h2, _⟩ := h
        exact Or.inr ⟨g, gs, h1, h2⟩
    rw [decodeChunks, hdec]
    show decodeChunks _ cs = _
    rw [ih { st with
        event_queue :=
          st.event_queue ++ liveEvents st (consumeFrames fs (st.previous_data ++ c)).1,
        previous_data := (consumeFrames fs (st.previous_data ++ c)).2 } fs2
      (fun g hg => hwf g (by rw [hfs]; exact List.mem_append_right _ hg))
      (fun g hg => hv g (by rw [hfs]; exact List.mem_append_right _ hg))
      hsplit2 hstuck3]
    have hle : liveEvents { st with
        event_queue :=
          st.event_queue ++ liveEvents st (consumeFrames fs (st.previous_data ++ c)).1,
        previous_data := (consumeFrames fs (st.previous_data ++ c)).2 } fs2 =
        liveEvents st fs2 := rfl
    rw [hle, List.append_assoc, ← liveEvents_append, ← hfs]

/-- C2: decoding a valid byte stream (a concatenation of well-formed
frames, each addressed to a live or dead id) split into chunks in any way
whatsoever, one `decode` call per chunk with the retained remainder
prepended, always yields the same result: every frame's live event queued
in stream order and an empty remainder.  In particular any two chunkings
of the stream - including the single-chunk whole stream - queue the same
ordered event sequence. -/
theorem decode_chunking_invariance (st : Display) (frames : List Frame)
    (chunks : List (List Byte))
    (hp : st.previous_data = [])
    (hwf : ∀ f, f ∈ frames → f.WF)
    (hv : ∀ f, f ∈ frames →
      (lookupA st.objects f.obj_id).isSome \/ f.obj_id ∈ st.dead_objects)
    (hsplit : chunks.flatten = frames.flatMap encodeFrame) :
    decodeChunks st chunks =
      .ok { st with event_queue := st.event_queue ++ liveEvents st frames,
                    previous_data := [] } := by
  apply decodeChunks_stream_run chunks st frames hwf hv
    (by rw [hp, List.nil_append]; exact hsplit)
  cases frames with
  | nil => exact Or.inl ⟨rfl, hp⟩
  | cons g gs => exact Or.inr ⟨g, gs, rfl, by rw [hp]; simp⟩

/-- Concrete scenario for exercising chunked decoding: one live object
(id 1), one dead id (4). -/
def chunkDemoDisplay : Display :=
  { initAllocDisplay with objects := [(1, Proxy.mk 1 "d")], dead_objects := [4] }

/-- Concrete two-frame stream: a live frame for id 1 and a dead frame for
id 4. -/
def chunkDemoFrames : List Frame :=
  [Frame.mk 1 0 [7, 7, 7, 7], Frame.mk 4 1 []]

/-- A split of the demo stream that cuts the first frame in the middle of
its header. -/
def chunkDemoChunks : List (List Byte) :=
  [(chunkDemoFrames.flatMap encodeFrame).take 5,
    (chunkDemoFrames.flatMap encodeFrame).drop 5]

/-- Witness for C2 at a concrete input: the demo stream split mid-header. -/
theorem decode_chunking_invariance_witness :
    chunkDemoDisplay.previous_data = [] ∧
      (∀ f ∈ chunkDemoFrames, f.WF) ∧
      (∀ f ∈ chunkDemoFrames,
        (lookupA chunkDemoDisplay.objects f.obj_id).isSome ∨
          f.obj_id ∈ chunkDemoDisplay.dead_objects) ∧
      chunkDemoChunks.flatten = chunkDemoFrames.flatMap encodeFrame ∧
      decodeChunks chunkDemoDisplay chunkDemoChunks =
        .ok { chunkDemoDisplay with
          event_queue :=
            chunkDemoDisplay.event_queue ++ liveEvents chunkDemoDisplay chunkDemoFrames,
          previous_data := [] } :=
  ⟨by decide, by decide, by decide, by decide,
    decode_chunking_invariance chunkDemoDisplay chunkDemoFrames chunkDemoChunks
      (by decide) (by decide) (by decide) (by decide)⟩

/-- Outcome of one send attempt on the non-blocking socket. -/
inductive SendRes where
  | accept (n : Nat)
  | wouldBlock
  | fatal
  deriving DecidableEq, Repr

/-- Result of trying to send one queue entry (the body of `flush`'s `try`
block).  The bytes a socket accepts are always a contiguous prefix of the
entry's data, so only their count `k` is recorded. -/
inductive EntryRes where
  | sentAll (o : List SendRes)
  | blocked (k : Nat) (o : List SendRes)
  | ioError (k : Nat) (o : List SendRes)
  | starved (k : Nat)
  deriving DecidableEq, Repr

/-- The inner `while sent < len(data): sent += self.connection.send(...)`
loop of `Display.flush` (lines 120-121), consuming one oracle entry per
send call; `starved` marks oracle exhaustion (a modelling artefact,
excluded by the theorems' hypotheses). -/
def sendFrom (len : Nat) : Nat → List SendRes → EntryRes
  | sent, o =>
    if len ≤ sent then .sentAll o
    else
      match o with
      | [] => .starved sent
      | .accept n :: o' => sendFrom len (sent + min n (len - sent)) o'
      | .wouldBlock :: o' => .blocked sent o'
      | .fatal :: o' => .ioError sent o'

/-- One entry's `try` block (lines 118-121): the initial `sendmsg`, which
attaches the file descriptors, then the plain-send completion loop. -/
def sendEntry (len : Nat) : List SendRes → EntryRes
  | [] => .starved 0
  | .accept n :: o' => sendFrom len (min n len) o'
  | .wouldBlock :: o' => .blocked 0 o'
  | .fatal :: o' => .ioError 0 o'

/-- Result of `Display.flush`: the final outbound queue, the transcript
of bytes the channel accepted (in order), and the unconsumed oracle.
`ioError` models the re-raised non-EAGAIN socket error (the entry being
sent was already popped and is not re-inserted). -/
inductive FlushRes where
  | ok (queue : List OutEntry) (transcript : List Byte) (o : List SendRes)
  | ioError (queue : List OutEntry) (transcript : List Byte) (o : List SendRes)
  | starved (queue : List OutEntry) (transcript : List Byte)
  deriving DecidableEq, Repr

/-- The transcript of bytes the channel accepted during a flush. -/
def FlushRes.transcript : FlushRes → List Byte
  | .ok _ t _ => t
  | .ioError _ t _ => t
  | .starved _ t => t

/-- Model of `Display.flush` (lines 115-128): pop entries in FIFO order; on
would-block (errno 11) re-insert the whole entry at the head of the queue
and stop; on any other socket error re-raise. -/
def flush : List OutEntry → List SendRes → FlushRes
  | [], o => .ok [] [] o
  | (data, fds) :: rest, o =>
    match sendEntry data.length o with
    | .sentAll o' =>
      match flush rest o' with
      | .ok q t o2 => .ok q (data ++ t) o2
      | .ioError q t o2 => .ioError q (data ++ t) o2
      | .starved q t => .starved q (data ++ t)
    | .blocked k o' => .ok ((data, fds) :: rest) (data.take k) o'
    | .ioError k o' => .ioError rest (data.take k) o'
    | .starved k => .starved ((data, fds) :: rest) (data.take k)

/-- C3: `flush` preserves FIFO order.  If every entry in front of `A` is
fully sent and a would-block occurs while sending `A` (with `k` bytes of
`A` already accepted), then `flush` returns with `A` - unchanged - back at
the head of the queue, the transcript contains no byte of any later entry,
and on every later flush of that queue the channel sees either only a
prefix of `A`'s bytes or all of `A`'s bytes before any later entry's. -/
theorem flush_fifo_would_block (front : List OutEntry) (A : OutEntry)
    (rest : List OutEntry) (o o1 o2 : List SendRes) (t1 : List Byte) (k : Nat)
    (hfront : flush front o = .ok [] t1 o1)
    (hblock : sendEntry A.1.length o1 = .blocked k o2) :
    flush (front ++ A :: rest) o = .ok (A :: rest) (t1 ++ A.1.take k) o2 ∧
      ∀ o', (flush (A :: rest) o').transcript <+: A.1 ∨
        A.1 <+: (flush (A :: rest) o').transcript := by
  obtain ⟨a, af⟩ := A
  have hblock' : sendEntry a.length o1 = .blocked k o2 := hblock
  constructor
  · induction front generalizing o t1 with
    | nil =>
      rw [flush] at hfront
      injection hfront with hq ht ho
      subst ht ho
      rw [List.nil_append, List.nil_append, flush, hblock']
    | cons e front' ih =>
      obtain ⟨d, df⟩ := e
      rw [flush] at hfront
      cases hse : sendEntry d.length o with
      | sentAll o' =>
        rw [hse] at hfront
        dsimp only at hfront
        cases hfl : flush front' o' with
        | ok q t o3 =>
          rw [hfl] at hfront
          dsimp only at hfront
          injection hfront with hq ht ho
          subst hq ho
          rw [← ht, List.cons_append, flush, hse]
          dsimp only
          rw [ih o' t hfl]
          dsimp only
          rw [List.append_assoc]
        | ioError q t o3 =>
          rw [hfl] at hfront
          exact absurd hfront (by simp)
        | starved q t =>
          rw [hfl] at hfront
          exact absurd hfront (by simp)
      | blocked k3 o3 =>
        rw [hse] at hfront
        exact absurd hfront (by simp)
      | ioError k3 o3 =>
        rw [hse] at hfront
        exact absurd hfront (by simp)
      | starved k3 =>
        rw [hse] at hfront
        exact absurd hfront (by simp)
  · intro o3
    rw [flush]
    cases hse : sendEntry a.length o3 with
    | sentAll o4 =>
      dsimp only
      cases hfl : flush rest o4 with
      | ok q t o5 => exact Or.inr ⟨t, rfl⟩
      | ioError q t o5 => exact Or.inr ⟨t, rfl⟩
      | starved q t => exact Or.inr ⟨t, rfl⟩
    | blocked k4 o4 => exact Or.inl ⟨_, List.take_append_drop _ _⟩
    | ioError k4 o4 => exact Or.inl ⟨_, List.take_append_drop _ _⟩
    | starved k4 => exact Or.inl ⟨_, List.take_append_drop _ _⟩

/-- Witness for C3 at a concrete input: the channel accepts the first
entry whole, then blocks before accepting any byte of the second. -/
theorem flush_fifo_would_block_witness :
    flush [([1, 2], [])] [.accept 2, .wouldBlock] = .ok [] [1, 2] [.wouldBlock] ∧
      sendEntry (([3, 4], ([] : List Nat)).1.length) [.wouldBlock] = .blocked 0 [] ∧
      (flush ([([1, 2], [])] ++ ([3, 4], []) :: [([5], [])]) [.accept 2, .wouldBlock] =
          .ok (([3, 4], []) :: [([5], [])])
            ([1, 2] ++ ([3, 4], ([] : List Nat)).1.take 0) [] ∧
        ∀ o', (flush (([3, 4], []) :: [([5], [])]) o').transcript <+:
            ([3, 4], ([] : List Nat)).1 ∨
          ([3, 4], ([] : List Nat)).1 <+:
            (flush (([3, 4], []) :: [([5], [])]) o').transcript) :=
  ⟨by decide, by decide,
    flush_fifo_would_block [([1, 2], [])] ([3, 4], []) [([5], [])]
      [.accept 2, .wouldBlock] [.wouldBlock] [] [1, 2] 0 (by decide) (by decide)⟩

/-- Model of `Display.remove_object` (lines 227-228): mark an id pending-delete by
appending it to the dead list; the entry stays in the live table. -/
def remove_object (st : Display) (obj : Nat) : Display :=
  { st with dead_objects := st.dead_objects ++ [obj] }

/-- Model of `Display.handle_delete_id` (lines 212-225), the handler for the
peer's deletion-acknowledgment event: if the id is in the live table,
`remove_object` is called (appending a fresh copy to the dead list), then
one copy is removed from the dead list and the id is deleted from the
live table.  `none` models an uncaught exception (`list.remove`
ValueError when the id is in neither structure, `del` KeyError when it is
only in the dead list). -/
def handle_delete_id (st : Display) (obj : Nat) : Option Display :=
  let st1 := if (lookupA st.objects obj).isSome then remove_object st obj else st
  if obj ∈ st1.dead_objects then
    let st2 := { st1 with dead_objects := st1.dead_objects.erase obj }
    if (lookupA st2.objects obj).isSome then
      some { st2 with objects := eraseA st2.objects obj }
    else none
  else none

/-- C1 (code bug): acknowledging the deletion of a pending-delete id does
NOT remove it from the dead set and does NOT return it to the free-list.
Concretely, for a connection whose live table holds id 3 and whose dead
set holds id 3 (the state `mark_pending_delete`/`remove_object` leaves),
`handle_delete_id 3` first re-appends 3 to the dead list before removing
one copy, so 3 remains dead forever, and nothing is ever appended to
`open_ids`, so `next_id` can never hand 3 out again. -/
theorem handle_delete_id_keeps_dead_id :
    ∃ st', handle_delete_id
        { initAllocDisplay with
            objects := [(3, Proxy.mk 3 "d")], dead_objects := [3] } 3 = some st' ∧
      3 ∈ st'.dead_objects ∧ st'.open_ids = [] ∧ lookupA st'.objects 3 = none :=
  ⟨_, rfl, by decide, by decide, by decide⟩

/-- Modelled from the spec (§4.1): `WaylandObject.pack_arguments` lives
in `wayland/base.py`, which is not among the analysed sources.  It
encodes a request as the 8-byte header (sender object id; message size in
the upper 16 bits of the second word, opcode in the lower 16) followed by
the argument bytes. -/
def pack_msg (sender op : Nat) (body : List Byte) : List Byte :=
  toLE4 sender ++ toLE4 (op % 65536 + 65536 * ((8 + body.length) % 65536)) ++ body

/-- Modelled from the spec (§4.1): string arguments are length-prefixed
(4-byte length) followed by that many bytes, padded with zero bytes up to
the next 4-byte boundary. -/
def encStringArg (s : String) : List Byte :=
  toLE4 (s.toUTF8.toList.map (fun c => c.toNat)).length ++
    (s.toUTF8.toList.map (fun c => c.toNat)) ++
    List.replicate ((4 - (s.toUTF8.toList.map (fun c => c.toNat)).length % 4) % 4) 0

/-- The bind request `Registry.handle_global` queues (line 252):
`self.pack_arguments(0, name, interface, version, new_id)`. -/
def bindMsg (registry_id name : Nat) (interface : String) (version new_id : Nat) :
    OutEntry :=
  (pack_msg registry_id 0
      (toLE4 name ++ encStringArg interface ++ toLE4 version ++ toLE4 new_id), [])

/-- Model of the `Registry` state (lines 234-238): the shared connection, the
registry's own id, and its `global_objects` map from server-assigned
global names to the locally bound object ids. -/
structure Registry where
  display : Display
  obj_id : Nat
  global_objects : List (Nat × Nat)
  deriving DecidableEq, Repr

/-- Model of `Registry.handle_global` (lines 240-263).  For an interface present
in the template table: allocate an id, queue the bind request, record the
name-to-id mapping, construct the proxy and store it in the globals table
- upgrading an existing single binding of this interface to a Python list
of proxies.  (The value stored under an interface key is always an
instance of that interface's template class, so the code's `isinstance`
test distinguishes exactly the single-proxy case from the list case.)
Finally the proxy is registered in the live-object table.  For an unknown
interface the handler only prints.  `none` models `StopIteration` from an
exhausted id iterator. -/
def handle_global (reg : Registry) (name : Nat) (interface : String) (version : Nat) :
    Option Registry :=
  if interface ∈ reg.display.global_templates then
    match reg.display.next_id with
    | none => none
    | some (new_id, d1) =>
      let d2 := { d1 with
        out_queue := d1.out_queue ++ [bindMsg reg.obj_id name interface version new_id] }
      let obj : Proxy := ⟨new_id, interface⟩
      let d3 :=
        match lookupA d2.globals interface with
        | some (.one p) =>
          { d2 with globals := setA d2.globals interface (.many [p, obj]) }
        | some (.many l) =>
          { d2 with globals := setA d2.globals interface (.many (l ++ [obj])) }
        | none => { d2 with globals := setA d2.globals interface (.one obj) }
      some { reg with
        display := { d3 with objects := setA d3.objects new_id obj },
        global_objects := setA reg.global_objects name new_id }
  else
    some reg

/-- Modelled from the spec (§4.6): `remove_obj`, called at line 291, lives
in `wayland/base.py`, which is not among the analysed sources; per the
spec the removed global's proxy is removed from the object registry, and
no destroy request is sent. -/
def remove_obj (st : Display) (id_num : Nat) : Display :=
  { st with objects := eraseA st.objects id_num }

/-- Model of `Registry.handle_global_remove` (lines 265-291): look up the bound id
for the announced name (returning silently when the name is unknown),
detach the proxy from the globals table - removing it from the bound list
and collapsing the list back to the single remaining proxy when exactly
one remains, or deleting the entry when the proxy is the single binding -
then drop the id from the object registry.  Python raises escape as
`none`: `KeyError` for a missing object id, `AttributeError` when the
single bound value is a different proxy (a proxy has no `remove` method;
the code's `is not` identity test is value inequality here, distinct live
proxies having distinct ids), and `ValueError` when the proxy is missing
from the bound list. -/
def handle_global_remove (reg : Registry) (name : Nat) : Option Registry :=
  match lookupA reg.global_objects name with
  | none => some reg
  | some id_num =>
    match lookupA reg.display.objects id_num with
    | none => none
    | some obj =>
      let step2 : Option Display :=
        match lookupA reg.display.globals obj.interface with
        | none => some reg.display
        | some (.one p) =>
          if p = obj then
            some { reg.display with
              globals := eraseA reg.display.globals obj.interface }
          else none
        | some (.many l) =>
          if obj ∈ l then
            if (l.erase obj).length = 1 then
              some { reg.display with
                globals := setA reg.display.globals obj.interface
                  (.one (l.erase obj).headI) }
            else
              some { reg.display with
                globals := setA reg.display.globals obj.interface (.many (l.erase obj)) }
          else none
      match step2 with
      | none => none
      | some d => some { reg with display := remove_obj d id_num }

/-- C10: a global announcement whose interface name is absent from the
caller-supplied template table leaves every piece of connection state
unchanged - no id drawn, no proxy registered, no global recorded, no bind
request queued (the code only prints the interface). -/
theorem handle_global_unknown_interface_noop (reg : Registry) (name : Nat)
    (interface : String) (version : Nat)
    (h : interface ∉ reg.display.global_templates) :
    handle_global reg name interface version = some reg := by
  rw [handle_global, if_neg h]

/-- Witness for C10 at a concrete input: announcing an interface while
the template table is empty. -/
theorem handle_global_unknown_interface_noop_witness :
    "wl_shm" ∉ (Registry.mk initAllocDisplay 2 []).display.global_templates ∧
      handle_global (Registry.mk initAllocDisplay 2 []) 10 "wl_shm" 1 =
        some (Registry.mk initAllocDisplay 2 []) :=
  ⟨by decide, handle_global_unknown_interface_noop (Registry.mk initAllocDisplay 2 [])
    10 "wl_shm" 1 (by decide)⟩

/-- C8: two global announcements for the same interface followed by the
removal of the first complete without error; the interface's globals
entry ends as the single second proxy (not a collection), the first
proxy's id is gone from the object registry, and the outbound queue
gained exactly the two bind requests - nothing is queued by the removal
(no destroy request is sent). -/
theorem global_remove_collapses_to_second (reg : Registry)
    (name1 name2 v1 v2 : Nat) (iface : String)
    (hname : name1 ≠ name2)
    (htmpl : iface ∈ reg.display.global_templates)
    (hopen : reg.display.open_ids = [])
    (hids : reg.display.ids_next + 1 < 4294967295)
    (hglob : lookupA reg.display.globals iface = none) :
    ∃ reg1 reg2 reg3,
      handle_global reg name1 iface v1 = some reg1 ∧
      handle_global reg1 name2 iface v2 = some reg2 ∧
      handle_global_remove reg2 name1 = some reg3 ∧
      lookupA reg3.display.globals iface =
        some (.one (Proxy.mk (reg.display.ids_next + 1) iface)) ∧
      lookupA reg3.display.objects reg.display.ids_next = none ∧
      reg3.display.out_queue =
        reg.display.out_queue ++
          [bindMsg reg.obj_id name1 iface v1 reg.display.ids_next,
            bindMsg reg.obj_id name2 iface v2 (reg.display.ids_next + 1)] := by
  refine
    ⟨{ reg with
        display := { reg.display with
          open_ids := [],
          ids_next := reg.display.ids_next + 1,
          out_queue := reg.display.out_queue ++
            [bindMsg reg.obj_id name1 iface v1 reg.display.ids_next],
          globals := setA reg.display.globals iface
            (.one (Proxy.mk reg.display.ids_next iface)),
          objects := setA reg.display.objects reg.display.ids_next
            (Proxy.mk reg.display.ids_next iface) },
        global_objects := setA reg.global_objects name1 reg.display.ids_next },
      { reg with
        display := { reg.display with
          open_ids := [],
          ids_next := reg.display.ids_next + 1 + 1,
          out_queue := (reg.display.out_queue ++
            [bindMsg reg.obj_id name1 iface v1 reg.display.ids_next]) ++
            [bindMsg reg.obj_id name2 iface v2 (reg.display.ids_next + 1)],
          globals := setA
            (setA reg.display.globals iface (.one (Proxy.mk reg.display.ids_next iface)))
            iface
            (.many [Proxy.mk reg.display.ids_next iface,
              Proxy.mk (reg.display.ids_next + 1) iface]),
          objects := setA
            (setA reg.display.objects reg.display.ids_next
              (Proxy.mk reg.display.ids_next iface))
            (reg.display.ids_next + 1) (Proxy.mk (reg.display.ids_next + 1) iface) },
        global_objects := setA (setA reg.global_objects name1 reg.display.ids_next)
          name2 (reg.display.ids_next + 1) },
      { reg with
        display := { reg.display with
          open_ids := [],
          ids_next := reg.display.ids_next + 1 + 1,
          out_queue := (reg.display.out_queue ++
            [bindMsg reg.obj_id name1 iface v1 reg.display.ids_next]) ++
            [bindMsg reg.obj_id name2 iface v2 (reg.display.ids_next + 1)],
          globals := setA
            (setA
              (setA reg.display.globals iface
                (.one (Proxy.mk reg.display.ids_next iface)))
              iface
              (.many [Proxy.mk reg.display.ids_next iface,
                Proxy.mk (reg.display.ids_next + 1) iface]))
            iface (.one (Proxy.mk (reg.display.ids_next + 1) iface)),
          objects := eraseA
            (setA
              (setA reg.display.objects reg.display.ids_next
                (Proxy.mk reg.display.ids_next iface))
              (reg.display.ids_next + 1) (Proxy.mk (reg.display.ids_next + 1) iface))
            reg.display.ids_next },
        global_objects := setA (setA reg.global_objects name1 reg.display.ids_next)
          name2 (reg.display.ids_next + 1) },
      ?_, ?_, ?_, ?_, ?_, ?_⟩
  · rw [handle_global, if_pos htmpl, Display.next_id, hopen]
    dsimp only
    rw [if_pos (show reg.display.ids_next < 4294967295 by omega)]
    dsimp only
    rw [hglob]
  · rw [handle_global, if_pos htmpl, Display.next_id]
    dsimp only
    rw [if_pos (show reg.display.ids_next + 1 < 4294967295 from hids)]
    dsimp only
    rw [lookupA_setA_self]
  · rw [handle_global_remove]
    dsimp only
    rw [lookupA_setA_ne _ _ _ _ (Ne.symm hname), lookupA_setA_self]
    dsimp only
    rw [lookupA_setA_ne _ _ _ _ (show reg.display.ids_next + 1 ≠ reg.display.ids_next
        by omega),
      lookupA_setA_self]
    dsimp only
    rw [lookupA_setA_self]
    dsimp only
    rw [if_pos (List.mem_cons_self _ _), List.erase_cons_head,
      if_pos (show (List.length [Proxy.mk (reg.display.ids_next + 1) iface]) = 1
        from rfl)]
    rfl
  · dsimp only
    rw [lookupA_setA_self]
  · dsimp only
    rw [lookupA_eraseA_self]
  · dsimp only
    rw [List.append_assoc]
    rfl

/-- Witness for C8 at a concrete input: interface "wl_seat" announced as
globals 10 and 11, then global 10 removed. -/
theorem global_remove_collapses_to_second_witness :
    (10 ≠ 11) ∧
      "wl_seat" ∈ (Registry.mk { initAllocDisplay with
          global_templates := ["wl_seat"], ids_next := 3 } 2 []).display.global_templates ∧
      (Registry.mk { initAllocDisplay with
          global_templates := ["wl_seat"], ids_next := 3 } 2 []).display.open_ids = [] ∧
      (Registry.mk { initAllocDisplay with
          global_templates := ["wl_seat"], ids_next := 3 } 2 []).display.ids_next + 1 <
        4294967295 ∧
      lookupA (Registry.mk { initAllocDisplay with
          global_templates := ["wl_seat"], ids_next := 3 } 2 []).display.globals
        "wl_seat" = none ∧
      (∃ reg1 reg2 reg3,
        handle_global (Registry.mk { initAllocDisplay with
            global_templates := ["wl_seat"], ids_next := 3 } 2 []) 10 "wl_seat" 4 =
          some reg1 ∧
        handle_global reg1 11 "wl_seat" 4 = some reg2 ∧
        handle_global_remove reg2 10 = some reg3 ∧
        lookupA reg3.display.globals "wl_seat" =
          some (.one (Proxy.mk ((Registry.mk { initAllocDisplay with
              global_templates := ["wl_seat"], ids_next := 3 } 2
              []).display.ids_next + 1) "wl_seat")) ∧
        lookupA reg3.display.objects (Registry.mk { initAllocDisplay with
            global_templates := ["wl_seat"], ids_next := 3 } 2 []).display.ids_next =
          none ∧
        reg3.display.out_queue =
          (Registry.mk { initAllocDisplay with
              global_templates := ["wl_seat"], ids_next := 3 } 2 []).display.out_queue ++
            [bindMsg 2 10 "wl_seat" 4 3, bindMsg 2 11 "wl_seat" 4 4]) :=
  ⟨by decide, by decide, by decide, by decide, by decide,
    global_remove_collapses_to_second
      (Registry.mk { initAllocDisplay with
        global_templates := ["wl_seat"], ids_next := 3 } 2 [])
      10 11 4 4 "wl_seat" (by decide) (by decide) (by decide) (by decide) (by decide)⟩

/-- The sync request `Display.sync` queues (line 172):
`self.pack_arguments(0, new_id)` sent from the display object (id 1). -/
def syncMsg (new_id : Nat) : OutEntry := (pack_msg 1 0 (toLE4 new_id), [])

/-- State of the roundtrip scenario: the connection, the id of the
callback whose `handle_done` was replaced by the completion closure, the
`ready` flag that closure sets, the bytes the peer has emitted but the
client has not yet received, and the count of completed `dispatch`
cycles. -/
structure RoundtripWorld where
  st : Display
  cb_id : Nat
  ready : Bool
  peer_out : List Byte
  cycles : Nat
  deriving DecidableEq, Repr

/-- The peer of the C9 scenario: it answers each flushed `sync` request -
a 12-byte frame addressed to the display object (id 1) with opcode 0
carrying a fresh callback id - with exactly one `done` event on that
callback (opcode 0, a 4-byte serial), and emits nothing else. -/
def peerAnswer (msg : OutEntry) : List Byte :=
  if msg.1.length = 12 ∧ readU32 msg.1 = 1 ∧ frameOp msg.1 = 0 then
    encodeFrame (Frame.mk (readU32 (msg.1.drop 8)) 0 (toLE4 0))
  else []

/-- Model of `Display.flush` under the scenario's always-ready channel: the
`while self.out_queue` loop empties the queue (every send is accepted in
full) and the peer reacts to each flushed message in order. -/
def flushRT (w : RoundtripWorld) : RoundtripWorld :=
  { w with
    st := { w.st with out_queue := [] },
    peer_out := w.peer_out ++ w.st.out_queue.flatMap peerAnswer }

/-- One `Display.recv` call (lines 76-89) in the scenario: the peer's
pending bytes arrive and are decoded.  The fallback branch (state kept
unchanged when decode raises or diverges) is unreachable in the
scenario. -/
def recvRT (w : RoundtripWorld) : RoundtripWorld :=
  match decode w.st w.peer_out with
  | .ok st1 => { w with st := st1, peer_out := [] }
  | _ => w

/-- The `while not self.event_queue: self.recv()` loop of
`Display.dispatch` (lines 66-67), with fuel. -/
def recvLoopRT : Nat → RoundtripWorld → RoundtripWorld
  | 0, w => w
  | n + 1, w =>
    if w.st.event_queue = [] then recvLoopRT n (recvRT w) else w

/-- Model of `Display.dispatch_pending` (lines 70-74) in the scenario: the queued
events are popped in order and their handlers invoked; the installed
`done` closure (line 137) sets the `ready` flag when the callback's done
event (opcode 0) is dispatched, and no other handler in the scenario
mutates state. -/
def dispatchPendingRT (w : RoundtripWorld) : RoundtripWorld :=
  { w with
    st := { w.st with event_queue := [] },
    ready := w.ready ||
      w.st.event_queue.any (fun e => e.1 = w.cb_id && e.2.1 = 0) }

/-- Model of `Display.dispatch` (lines 64-68): flush, receive until at least one
event is queued, then dispatch the queue. -/
def dispatchRT (w : RoundtripWorld) : RoundtripWorld :=
  dispatchPendingRT (recvLoopRT ((flushRT w).peer_out.length + 1) (flushRT w))

/-- The `while not ready: self.dispatch()` loop of `Display.roundtrip`
(lines 138-139), with fuel, counting completed dispatch cycles. -/
def roundtripLoop : Nat → RoundtripWorld → RoundtripWorld
  | 0, w => w
  | n + 1, w =>
    if w.ready then w
    else
      roundtripLoop n
        { dispatchRT w with cycles := (dispatchRT w).cycles + 1 }

/-- Model of `Display.roundtrip` (lines 130-139): run `Display.sync` (lines
153-173: allocate a callback id, register the callback proxy, queue the
sync request), install the completion closure as the callback's
done-handler, then dispatch until the flag is set.  `none` models
`StopIteration` from an exhausted id iterator. -/
def roundtripRT (st : Display) (fuel : Nat) : Option RoundtripWorld :=
  match st.next_id with
  | none => none
  | some (new_id, st1) =>
    some (roundtripLoop fuel
      { st := { st1 with
          objects := setA st1.objects new_id (Proxy.mk new_id "wl_callback"),
          out_queue := st1.out_queue ++ [syncMsg new_id] },
        cb_id := new_id,
        ready := false,
        peer_out := [],
        cycles := 0 })

/-- Once the flag is set, the roundtrip loop exits immediately at any
fuel. -/
theorem roundtripLoop_ready (n : Nat) (w : RoundtripWorld) (h : w.ready = true) :
    roundtripLoop n w = w := by
  cases n with
  | zero => rfl
  | succ n => rw [roundtripLoop, if_pos h]

/-- The connection state for the C9 scenario: the display object (id 1)
is registered, the next fresh id is 2, and all queues are empty. -/
def rtInitDisplay : Display :=
  { initAllocDisplay with
    ids_next := 2, objects := [(1, Proxy.mk 1 "wl_display")] }

/-- The world `roundtrip` has built just before its dispatch loop in the
C9 scenario: callback id 2 allocated and registered, the sync request
queued, the flag cleared. -/
def rtStartWorld : RoundtripWorld :=
  { st := { rtInitDisplay with
      ids_next := 3,
      objects := setA rtInitDisplay.objects 2 (Proxy.mk 2 "wl_callback"),
      out_queue := rtInitDisplay.out_queue ++ [syncMsg 2] },
    cb_id := 2, ready := false, peer_out := [], cycles := 0 }

/-- The world after the single dispatch cycle of the C9 scenario. -/
def rtDoneWorld : RoundtripWorld :=
  { dispatchRT rtStartWorld with cycles := (dispatchRT rtStartWorld).cycles + 1 }

/-- C9: against a peer that answers each sync with exactly one done
event, `roundtrip` terminates, and it does so after exactly one dispatch
cycle beyond the flush that sent the sync request - at every loop fuel
bound of at least one. -/
theorem roundtrip_one_cycle (fuel : Nat) (hfuel : 1 ≤ fuel) :
    ∃ w, roundtripRT rtInitDisplay fuel = some w ∧
      w.ready = true ∧ w.cycles = 1 := by
  obtain ⟨n, rfl⟩ : ∃ n, fuel = n + 1 := ⟨fuel - 1, by omega⟩
  refine ⟨rtDoneWorld, ?_, by decide, by decide⟩
  rw [roundtripRT]
  rw [show Display.next_id rtInitDisplay =
      some (2, { rtInitDisplay with ids_next := 3 }) from rfl]
  dsimp only
  rw [roundtripLoop, if_neg (by decide)]
  rw [roundtripLoop_ready n _ (by decide)]
  rfl

/-- Witness for C9 at a concrete fuel. -/
theorem roundtrip_one_cycle_witness :
    1 ≤ 5 ∧ ∃ w, roundtripRT rtInitDisplay 5 = some w ∧
      w.ready = true ∧ w.cycles = 1 :=
  ⟨by decide, roundtrip_one_cycle 5 (by decide)⟩

end Wayland
